import Mathlib

/-!
Verification development for the JWT token-lifecycle core of the
`upnext-fng/fulcrum` repository (package `security/jwt`).

The Go code is shallowly embedded as follows.

* A JSON-level claim value (Go `interface{}` as seen by the claims parser
  after `jwt.Parse` has decoded the token payload) is `WireValue`.
  Go `float64` timestamp payloads are modelled at integral values
  (`wFloat`), which is the range the encoder produces (`Unix()` seconds)
  and which the spec requires to normalize to integer seconds; `int64`
  and `int` are the other numeric cases the parser's type switch accepts.
* A Go `map[string]interface{}` claim set is an association list with
  unique keys (`WireClaims`); `setW` is map assignment (replace or
  insert), `lookupW` is map lookup.
* Unix times and durations are `Int` seconds.  `time.Now()` is passed
  explicitly as a `now : Int` argument, matching the one-read-per-call
  discipline of the code.
* `jwt.Parse` (external golang-jwt v5 library, called by validator.go
  with no parser options) is modelled in two parts: the structural and
  signature check is abstracted — a signed token is represented by the
  wire claim set the parser hands to `ParseClaims` on success, recorded
  in `SignedToken.token` — while the library's default claims
  validation, which runs inside `jwt.Parse` and which the repository
  cannot switch off (its `SkipExpiration`/`SkipValidation` options only
  reach the repository's own policy gate), is `parseTimeValidation`.
  HMAC-SHA256 signing of a string secret cannot fail, so
  `generateSignedToken` is total.
* Fallible Go functions returning `(T, error)` become `Except JwtError T`.
-/

namespace Fulcrum

/-- A JSON-level wire claim value (Go `interface{}`). -/
inductive WireValue where
  | wStr (s : String)
  | wInt (n : Int)
  | wInt64 (n : Int)
  | wFloat (n : Int)
  | wBool (b : Bool)
  | wArr (a : List WireValue)
  | wMap (m : List (String × WireValue))

/-- A Go `map[string]interface{}` claim set: association list, unique keys. -/
abbrev WireClaims := List (String × WireValue)

/-- Map lookup (`claims[key]`, first matching entry). -/
def lookupW (m : WireClaims) (k : String) : Option WireValue :=
  match m with
  | [] => none
  | (k', v) :: rest => if k' = k then some v else lookupW rest k

/-- Map assignment `m[k] = v`: replace the first `k`-entry or append. -/
def setW (m : WireClaims) (k : String) (v : WireValue) : WireClaims :=
  match m with
  | [] => [(k, v)]
  | (k', v') :: rest => if k' = k then (k, v) :: rest else (k', v') :: setW rest k v

/-- Write every entry of `cust` into `m` in order (the custom-claims
overlay loop of `generateSignedToken`). -/
def overlayW (m : WireClaims) (cust : WireClaims) : WireClaims :=
  cust.foldl (fun acc kv => setW acc kv.1 kv.2) m

/-- `TokenType` from types.go (`"access"` / `"refresh"`). -/
inductive TokenType where
  | access
  | refresh
deriving DecidableEq

/-- The string constant behind each token kind. -/
def TokenType.str : TokenType → String
  | .access => "access"
  | .refresh => "refresh"

/-- The four error values of errors.go (error kinds, compared by identity). -/
inductive JwtError where
  | invalidToken
  | tokenExpired
  | invalidSignature
  | invalidClaims
deriving DecidableEq

/-- `Claims` from types.go.  `metadata` is `Option` because Go
distinguishes a nil map from an empty one (`claims.Metadata != nil`). -/
structure Claims where
  userID : String := ""
  tokenType : String := ""
  clientID : String := ""
  deviceID : String := ""
  sessionID : String := ""
  scopes : List String := []
  metadata : Option WireClaims := none
  issuer : String := ""
  audience : String := ""
  subject : String := ""
  expiresAt : Int := 0
  issuedAt : Int := 0
  notBefore : Int := 0
  custom : WireClaims := []

/-- `SignedToken` from types.go; the opaque signed string is represented
by the wire claim set it carries (see the header comment). -/
structure SignedToken where
  token : WireClaims
  expiresAt : Int
  issuedAt : Int
  tokenType : String
  expiresIn : Int
  tokenKind : TokenType
  scope : List String

/-- `ValidatedToken` from types.go (`ExpiresAt` zero time modelled as 0). -/
structure ValidatedToken where
  claims : Claims
  isValid : Bool
  expiresAt : Int

/-- `TokenConfig` from types.go (zero value as defaults). -/
structure TokenConfig where
  tokenKind : TokenType := .access
  expiresAt : Int := 0
  issuedAt : Int := 0
  audience : List String := []
  scope : List String := []
  subject : String := ""

/-- `ValidationConfig` from types.go (zero value as defaults). -/
structure ValidationConfig where
  skipExpiration : Bool := false
  skipValidation : Bool := false
  requiredScopes : List String := []
  requiredIssuer : String := ""
  requiredAudience : String := ""

/-- Service `Config` from config.go (TTLs in whole seconds). -/
structure Config where
  secret : String := ""
  accessTokenTTL : Int := 0
  refreshTokenTTL : Int := 0
  issuer : String := ""
  audience : String := ""

/-- `TokenOption` (options mutate the config or fail; state-passing). -/
abbrev TokenOption := TokenConfig → Except JwtError TokenConfig

/-- `ValidationOption`. -/
abbrev ValidationOption := ValidationConfig → Except JwtError ValidationConfig

/-- `WithAudience` from options.go. -/
def withAudience (audience : List String) : TokenOption :=
  fun tc => .ok { tc with audience := audience }

/-- `WithScope` from options.go. -/
def withScope (scope : List String) : TokenOption :=
  fun tc => .ok { tc with scope := scope }

/-- `WithSubject` from options.go. -/
def withSubject (subject : String) : TokenOption :=
  fun tc => .ok { tc with subject := subject }

/-- `WithExpiresAt` from options.go. -/
def withExpiresAt (expiresAt : Int) : TokenOption :=
  fun tc => .ok { tc with expiresAt := expiresAt }

/-- `WithIssuedAt` from options.go. -/
def withIssuedAt (issuedAt : Int) : TokenOption :=
  fun tc => .ok { tc with issuedAt := issuedAt }

/-- `SkipExpiration` from options.go. -/
def skipExpirationOption : ValidationOption :=
  fun vc => .ok { vc with skipExpiration := true }

/-- `SkipValidation` from options.go. -/
def skipValidationOption : ValidationOption :=
  fun vc => .ok { vc with skipValidation := true }

/-- `WithRequiredScopes` from options.go. -/
def withRequiredScopes (scopes : List String) : ValidationOption :=
  fun vc => .ok { vc with requiredScopes := scopes }

/-- `WithRequiredIssuer` from options.go. -/
def withRequiredIssuer (issuer : String) : ValidationOption :=
  fun vc => .ok { vc with requiredIssuer := issuer }

/-- `WithRequiredAudience` from options.go. -/
def withRequiredAudience (audience : String) : ValidationOption :=
  fun vc => .ok { vc with requiredAudience := audience }

/-- `claimsParser.getStringClaim`: present and string-typed, else `""`. -/
def getStringClaim (m : WireClaims) (k : String) : String :=
  match lookupW m k with
  | some (.wStr s) => s
  | _ => ""

/-- `claimsParser.getInt64Claim`: the type switch accepts `float64`,
`int64`, `int`; anything else degrades to 0. -/
def getInt64Claim (m : WireClaims) (k : String) : Int :=
  match lookupW m k with
  | some (.wFloat v) => v
  | some (.wInt64 v) => v
  | some (.wInt v) => v
  | _ => 0

/-- `claimsParser.getStringArrayClaim`: `[]interface{}` value filtered to
its string elements, else nil. -/
def getStringArrayClaim (m : WireClaims) (k : String) : List String :=
  match lookupW m k with
  | some (.wArr arr) =>
      arr.filterMap (fun v => match v with | .wStr s => some s | _ => none)
  | _ => []

/-- `claimsParser.getMapClaim`: `map[string]interface{}` value or nil. -/
def getMapClaim (m : WireClaims) (k : String) : Option WireClaims :=
  match lookupW m k with
  | some (.wMap mm) => some mm
  | _ => none

/-- The decoder's protected-key set (`claimsParser.getCustomClaims`). -/
def protectedKeys : List String :=
  ["user_id", "token_type", "client_id", "device_id", "session_id",
   "scopes", "metadata", "iss", "aud", "sub", "exp", "iat", "nbf"]

/-- `claimsParser.getCustomClaims`: every wire entry whose key is not
protected (the Go range loop, entry by entry). -/
def getCustomClaims : WireClaims → WireClaims
  | [] => []
  | kv :: rest =>
      if protectedKeys.contains kv.1 then getCustomClaims rest
      else kv :: getCustomClaims rest

/-- `claimsParser.ExtractClaims`: `user_id` must be present and
string-typed, every other field is read through a degrading getter. -/
def extractClaims (m : WireClaims) : Except JwtError Claims :=
  match lookupW m "user_id" with
  | some (.wStr userID) =>
      .ok { userID := userID
            tokenType := getStringClaim m "token_type"
            clientID := getStringClaim m "client_id"
            deviceID := getStringClaim m "device_id"
            sessionID := getStringClaim m "session_id"
            issuer := getStringClaim m "iss"
            audience := getStringClaim m "aud"
            subject := getStringClaim m "sub"
            expiresAt := getInt64Claim m "exp"
            issuedAt := getInt64Claim m "iat"
            notBefore := getInt64Claim m "nbf"
            scopes := getStringArrayClaim m "scopes"
            metadata := getMapClaim m "metadata"
            custom := getCustomClaims m }
  | _ => .error .invalidClaims

/-- `tokenValidator.hasRequiredScopes`: the Go code materialises the token
scopes as a set (`map[string]bool`) and checks every required scope is a
member; membership in that set is exactly list membership. -/
def hasRequiredScopes (tokenScopes requiredScopes : List String) : Bool :=
  requiredScopes.all (fun r => tokenScopes.contains r)

/-- `tokenValidator.ValidateClaims`: the sequential policy gates
(expiration, not-before, issuer, audience, scopes), first failure wins. -/
def validateClaims (claims : Claims) (config : ValidationConfig) (now : Int) :
    Except JwtError Unit :=
  if config.skipExpiration = false ∧ 0 < claims.expiresAt ∧ claims.expiresAt < now then
    .error .tokenExpired
  else if 0 < claims.notBefore ∧ now < claims.notBefore then
    .error .invalidToken
  else if config.requiredIssuer ≠ "" ∧ claims.issuer ≠ config.requiredIssuer then
    .error .invalidToken
  else if config.requiredAudience ≠ "" ∧ claims.audience ≠ config.requiredAudience then
    .error .invalidToken
  else if config.requiredScopes ≠ [] ∧
      hasRequiredScopes claims.scopes config.requiredScopes = false then
    .error .invalidToken
  else
    .ok ()

/-- The option-application loop of `ValidateToken` (abort on first error). -/
def applyValidationOptions (opts : List ValidationOption) (c : ValidationConfig) :
    Except JwtError ValidationConfig :=
  match opts with
  | [] => .ok c
  | o :: rest =>
      match o c with
      | .ok c' => applyValidationOptions rest c'
      | .error e => .error e

/-- The numeric cases accepted by the claim parsers' type switches.  On a
token that went through `jwt.Parse`, a JSON number is a `float64`
(`wFloat`); `wInt64`/`wInt` are the further cases the repository's own
`getInt64Claim` accepts, kept as alternative representations of the same
numeric wire value. -/
def numericValue : WireValue → Option Int
  | .wFloat n => some n
  | .wInt64 n => some n
  | .wInt n => some n
  | _ => none

/-- The not-before half of golang-jwt v5's default claims validation: a
present `nbf` must not lie in the future; the library's not-valid-yet
error is represented by its kind, `invalidToken`, and a present
non-numeric `nbf` fails date extraction with an invalid-claims kind. -/
def parseTimeNotBefore (m : WireClaims) (now : Int) : Except JwtError Unit :=
  match lookupW m "nbf" with
  | some v =>
      match numericValue v with
      | some nbf => if now < nbf then .error .invalidToken else .ok ()
      | none => .error .invalidClaims
  | none => .ok ()

/-- The default claims validation golang-jwt v5 runs inside `jwt.Parse`
(validator.go calls `jwt.Parse` with no parser options, so it cannot be
disabled, and the repository's `SkipExpiration`/`SkipValidation` options
never reach it): a present `exp` must lie strictly in the future and a
present `nbf` must not lie in the future.  The library's token-expired
error is represented by its kind, `tokenExpired`; a present non-numeric
`exp` fails date extraction with an invalid-claims kind. -/
def parseTimeValidation (m : WireClaims) (now : Int) : Except JwtError Unit :=
  match lookupW m "exp" with
  | some v =>
      match numericValue v with
      | some exp =>
          if now < exp then parseTimeNotBefore m now else .error .tokenExpired
      | none => .error .invalidClaims
  | none => parseTimeNotBefore m now

/-- `tokenValidator.ValidateToken`, as seen from the wire claim set of a
token whose structural/signature check succeeded: apply options, run the
library's parse-time claims validation, parse claims, run the policy
gates unless skipped, and build the result. -/
def validateTokenClaims (m : WireClaims) (opts : List ValidationOption) (now : Int) :
    Except JwtError ValidatedToken :=
  match applyValidationOptions opts {} with
  | .error e => .error e
  | .ok config =>
      match parseTimeValidation m now with
      | .error e => .error e
      | .ok _ =>
          match extractClaims m with
          | .error e => .error e
          | .ok parsedClaims =>
              match (if config.skipValidation = false then
                       validateClaims parsedClaims config now
                     else .ok ()) with
              | .error e => .error e
              | .ok _ =>
                  .ok { claims := parsedClaims
                        isValid := true
                        expiresAt := if 0 < parsedClaims.expiresAt then parsedClaims.expiresAt
                                     else 0 }

/-- The option-application loop of the token generators (abort on first
error). -/
def applyTokenOptions (opts : List TokenOption) (c : TokenConfig) :
    Except JwtError TokenConfig :=
  match opts with
  | [] => .ok c
  | o :: rest =>
      match o c with
      | .ok c' => applyTokenOptions rest c'
      | .error e => .error e

/-- `jwtService.generateSignedToken`, assignment by assignment:
standard claims, conditional optional claims, the issuer/audience/subject
fallback chains, the custom-claims overlay, then the `SignedToken` value.
Slice-valued wire entries (`scopes`, audience override, `scope`) are
generic arrays of strings at the JSON level; `Unix()` timestamps are
`int64`.  Signing cannot fail (HMAC over a byte-slice secret). -/
def generateSignedToken (svc : Config) (claims : Claims) (config : TokenConfig) :
    SignedToken :=
  let tc : WireClaims := []
  let tc := setW tc "user_id" (.wStr claims.userID)
  let tc := setW tc "token_type" (.wStr config.tokenKind.str)
  let tc := setW tc "exp" (.wInt64 config.expiresAt)
  let tc := setW tc "iat" (.wInt64 config.issuedAt)
  let tc := setW tc "nbf" (.wInt64 config.issuedAt)
  let tc := if claims.clientID ≠ "" then setW tc "client_id" (.wStr claims.clientID) else tc
  let tc := if claims.deviceID ≠ "" then setW tc "device_id" (.wStr claims.deviceID) else tc
  let tc := if claims.sessionID ≠ "" then setW tc "session_id" (.wStr claims.sessionID) else tc
  let tc := if claims.scopes ≠ [] then setW tc "scopes" (.wArr (claims.scopes.map .wStr)) else tc
  let tc := match claims.metadata with
            | some md => setW tc "metadata" (.wMap md)
            | none => tc
  let tc := if claims.issuer ≠ "" then setW tc "iss" (.wStr claims.issuer)
            else if svc.issuer ≠ "" then setW tc "iss" (.wStr svc.issuer)
            else tc
  let tc := if config.audience ≠ [] then setW tc "aud" (.wArr (config.audience.map .wStr))
            else if claims.audience ≠ "" then setW tc "aud" (.wStr claims.audience)
            else if svc.audience ≠ "" then setW tc "aud" (.wStr svc.audience)
            else tc
  let tc := if config.scope ≠ [] then setW tc "scope" (.wArr (config.scope.map .wStr)) else tc
  let tc := if config.subject ≠ "" then setW tc "sub" (.wStr config.subject)
            else if claims.subject ≠ "" then setW tc "sub" (.wStr claims.subject)
            else setW tc "sub" (.wStr claims.userID)
  let tc := overlayW tc claims.custom
  { token := tc
    expiresAt := config.expiresAt
    issuedAt := config.issuedAt
    tokenType := "Bearer"
    expiresIn := config.expiresAt - config.issuedAt
    tokenKind := config.tokenKind
    scope := config.scope }

/-- The default `TokenConfig` built by `GenerateAccessToken` before the
options run: access kind, issued now, expiring now + access TTL. -/
def accessDefaultConfig (svc : Config) (now : Int) : TokenConfig :=
  { tokenKind := .access
    issuedAt := now
    expiresAt := now + svc.accessTokenTTL }

/-- `jwtService.GenerateAccessToken`: default config, options in order
(first error aborts), then the signing step. -/
def generateAccessToken (svc : Config) (now : Int) (claims : Claims)
    (opts : List TokenOption) : Except JwtError SignedToken :=
  match applyTokenOptions opts (accessDefaultConfig svc now) with
  | .error e => .error e
  | .ok config => .ok (generateSignedToken svc claims config)

/-- `tokenRefresher.RefreshAccessToken`: validate the refresh token with
default options, reject non-refresh kinds, rebuild the identity claims
with the access kind, and issue a new access token.  The Go wrapper that
converts each `RefreshOption` into a `TokenOption` calls the original
option unchanged, so the options are passed through as-is. -/
def refreshAccessToken (svc : Config) (now : Int) (refreshToken : WireClaims)
    (opts : List TokenOption) : Except JwtError SignedToken :=
  match validateTokenClaims refreshToken [] now with
  | .error e => .error e
  | .ok validated =>
      if validated.isValid = false then .error .invalidToken
      else if validated.claims.tokenType ≠ TokenType.refresh.str then .error .invalidToken
      else
        let claims : Claims :=
          { userID := validated.claims.userID
            tokenType := TokenType.access.str
            clientID := validated.claims.clientID
            deviceID := validated.claims.deviceID
            sessionID := validated.claims.sessionID
            scopes := validated.claims.scopes
            metadata := validated.claims.metadata
            issuer := validated.claims.issuer
            audience := validated.claims.audience
            subject := validated.claims.subject
            custom := validated.claims.custom }
        generateAccessToken svc now claims opts

/-- Modelled from the spec: the protected-key set the specification
ascribes to the claims codec, namely the keys the *encoder* writes,
including `scope` (spec section 4.1 and the claim under review).  This is
the comparison set for the refinement check against the decoder's actual
`protectedKeys`; it is not part of the source. -/
def specProtectedKeys : List String :=
  ["user_id", "token_type", "exp", "iat", "nbf", "client_id", "device_id",
   "session_id", "scopes", "metadata", "iss", "aud", "sub", "scope"]

/-- Whether an `Except` computation succeeded. -/
def isOkE : Except JwtError ValidatedToken → Bool
  | .ok _ => true
  | .error _ => false

/-- A concrete service configuration used by the witnesses. -/
def exampleService : Config :=
  { secret := "test-secret", accessTokenTTL := 3600, refreshTokenTTL := 86400,
    issuer := "fulcrum", audience := "" }

/-- A concrete claims value used by the witnesses. -/
def exampleClaims : Claims := { userID := "u1", scopes := ["read", "write"] }

/-- Claim set of an access token whose expiry has passed at time 100. -/
def expiredAccessWire : WireClaims :=
  [("user_id", .wStr "u1"), ("token_type", .wStr "access"), ("exp", .wInt64 10)]

/-- Claim set of an access token still valid at time 5. -/
def freshAccessWire : WireClaims :=
  [("user_id", .wStr "u1"), ("token_type", .wStr "access"), ("exp", .wInt64 1000)]

/-- Claims whose token_type differs from the issuance kind. -/
def c4Claims : Claims := { userID := "u1", tokenType := "refresh" }

/-- An access-kind token configuration with fixed times. -/
def c4Config : TokenConfig := { tokenKind := .access, expiresAt := 100, issuedAt := 50 }

/-- Claims whose scope set lacks the required scope. -/
def c5Claims : Claims := { userID := "u1", scopes := ["write"] }

/-- A validation configuration requiring the read scope. -/
def c5Vconfig : ValidationConfig := { requiredScopes := ["read"] }

/-- A claim set carrying only user_id. -/
def c6Wire : WireClaims := [("user_id", .wStr "u1")]

/-- A token configuration with a per-call audience override. -/
def c7Config : TokenConfig := { tokenKind := .access, audience := ["api"] }

/-- A claim set carrying an encoder-style scope entry. -/
def c8Wire : WireClaims := [("user_id", .wStr "u1"), ("scope", .wArr [.wStr "read"])]

/-- A token configuration whose audience override holds the empty string,
for a token still inside its validity window at time 5. -/
def c10EmptyConfig : TokenConfig :=
  { tokenKind := .access, expiresAt := 100, issuedAt := 0, audience := [""] }

/-- A token configuration with a nonempty audience override. -/
def c10Config : TokenConfig :=
  { tokenKind := .access, expiresAt := 100, issuedAt := 0, audience := ["api"] }

/-- Lookup after map assignment. -/
theorem lookupW_setW (m : WireClaims) (k : String) (v : WireValue) (q : String) :
    lookupW (setW m k v) q = if k = q then some v else lookupW m q := by
  induction m with
  | nil => simp [setW, lookupW]
  | cons kv rest ih =>
      obtain ⟨a, b⟩ := kv
      by_cases hak : a = k
      · subst hak
        by_cases haq : a = q
        · subst haq; simp [setW, lookupW]
        · simp [setW, lookupW, haq]
      · by_cases hkq : k = q
        · subst hkq
          simp [setW, lookupW, hak, ih]
        · simp [setW, lookupW, hak, hkq, ih]

/-- Lookup misses when no entry carries the key. -/
theorem lookupW_eq_none (m : WireClaims) (k : String)
    (h : ∀ kv ∈ m, kv.1 ≠ k) : lookupW m k = none := by
  induction m with
  | nil => rfl
  | cons kv rest ih =>
      simp only [lookupW]
      rw [if_neg (h kv (by simp)), ih]
      intro kv' hkv'
      exact h kv' (by simp [hkv'])

/-- The custom overlay leaves keys it does not mention unchanged. -/
theorem lookupW_overlay_not_mem (cust : WireClaims) (m : WireClaims) (k : String)
    (h : ∀ kv ∈ cust, kv.1 ≠ k) :
    lookupW (overlayW m cust) k = lookupW m k := by
  induction cust generalizing m with
  | nil => rfl
  | cons kv rest ih =>
      simp only [overlayW, List.foldl] at ih ⊢
      rw [ih]
      · rw [lookupW_setW, if_neg (h kv (by simp))]
      · intro kv' hkv'
        exact h kv' (by simp [hkv'])

/-- With unique overlay keys, overlay lookup prefers the overlay entry. -/
theorem lookupW_overlay_nodup (cust : WireClaims) (m : WireClaims) (k : String)
    (h : (cust.map Prod.fst).Nodup) :
    lookupW (overlayW m cust) k =
      match lookupW cust k with
      | some v => some v
      | none => lookupW m k := by
  induction cust generalizing m with
  | nil => rfl
  | cons kv rest ih =>
      simp only [List.map, List.nodup_cons] at h
      simp only [overlayW, List.foldl] at ih ⊢
      rw [ih _ h.2]
      by_cases hk : kv.1 = k
      · subst hk
        have hrest : lookupW rest kv.1 = none := by
          apply lookupW_eq_none
          intro kv' hkv' he
          exact h.1 (he ▸ List.mem_map_of_mem Prod.fst hkv')
        simp [lookupW, hrest, lookupW_setW]
      · simp only [lookupW, hk, if_neg hk]
        cases hl : lookupW rest k
        · simp [lookupW_setW, hk]
        · simp

/-- Lookup distributes over a conditional map. -/
theorem lookupW_ite (c : Prop) [Decidable c] (a b : WireClaims) (k : String) :
    lookupW (if c then a else b) k = if c then lookupW a k else lookupW b k := by
  split <;> rfl

/-- Custom-claims lookup: protected keys are dropped, all others pass through. -/
theorem lookupW_getCustom (m : WireClaims) (k : String) :
    lookupW (getCustomClaims m) k =
      if k ∈ protectedKeys then none else lookupW m k := by
  induction m with
  | nil =>
      simp only [getCustomClaims, lookupW]
      split <;> rfl
  | cons kv rest ih =>
      by_cases hp : kv.1 ∈ protectedKeys
      · by_cases hk : kv.1 = k
        · subst hk
          simp [getCustomClaims, lookupW, hp, ih]
        · simp [getCustomClaims, lookupW, hp, hk, ih]
      · by_cases hk : kv.1 = k
        · subst hk
          simp [getCustomClaims, lookupW, hp, ih]
        · simp [getCustomClaims, lookupW, hp, hk, ih]

section TokenLookups

variable (svc : Config) (claims : Claims) (config : TokenConfig)

/-- The user_id entry of a generated token. -/
theorem token_lookup_user_id
    (h : ∀ kv ∈ claims.custom, kv.1 ≠ "user_id") :
    lookupW (generateSignedToken svc claims config).token "user_id" =
      some (.wStr claims.userID) := by
  simp only [generateSignedToken]
  rw [lookupW_overlay_not_mem _ _ _ h]
  cases claims.metadata <;> simp [lookupW_ite, lookupW_setW, lookupW]

/-- The token_type entry of a generated token. -/
theorem token_lookup_token_type
    (h : ∀ kv ∈ claims.custom, kv.1 ≠ "token_type") :
    lookupW (generateSignedToken svc claims config).token "token_type" =
      some (.wStr config.tokenKind.str) := by
  simp only [generateSignedToken]
  rw [lookupW_overlay_not_mem _ _ _ h]
  cases claims.metadata <;> simp [lookupW_ite, lookupW_setW, lookupW]

/-- The iat entry of a generated token. -/
theorem token_lookup_iat
    (h : ∀ kv ∈ claims.custom, kv.1 ≠ "iat") :
    lookupW (generateSignedToken svc claims config).token "iat" =
      some (.wInt64 config.issuedAt) := by
  simp only [generateSignedToken]
  rw [lookupW_overlay_not_mem _ _ _ h]
  cases claims.metadata <;> simp [lookupW_ite, lookupW_setW, lookupW]

/-- The nbf entry of a generated token. -/
theorem token_lookup_nbf
    (h : ∀ kv ∈ claims.custom, kv.1 ≠ "nbf") :
    lookupW (generateSignedToken svc claims config).token "nbf" =
      some (.wInt64 config.issuedAt) := by
  simp only [generateSignedToken]
  rw [lookupW_overlay_not_mem _ _ _ h]
  cases claims.metadata <;> simp [lookupW_ite, lookupW_setW, lookupW]

/-- The client_id entry of a generated token. -/
theorem token_lookup_client_id
    (h : ∀ kv ∈ claims.custom, kv.1 ≠ "client_id") :
    lookupW (generateSignedToken svc claims config).token "client_id" =
      if claims.clientID ≠ "" then some (.wStr claims.clientID) else none := by
  simp only [generateSignedToken]
  rw [lookupW_overlay_not_mem _ _ _ h]
  cases claims.metadata <;> simp [lookupW_ite, lookupW_setW, lookupW]

/-- The device_id entry of a generated token. -/
theorem token_lookup_device_id
    (h : ∀ kv ∈ claims.custom, kv.1 ≠ "device_id") :
    lookupW (generateSignedToken svc claims config).token "device_id" =
      if claims.deviceID ≠ "" then some (.wStr claims.deviceID) else none := by
  simp only [generateSignedToken]
  rw [lookupW_overlay_not_mem _ _ _ h]
  cases claims.metadata <;> simp [lookupW_ite, lookupW_setW, lookupW]

/-- The session_id entry of a generated token. -/
theorem token_lookup_session_id
    (h : ∀ kv ∈ claims.custom, kv.1 ≠ "session_id") :
    lookupW (generateSignedToken svc claims config).token "session_id" =
      if claims.sessionID ≠ "" then some (.wStr claims.sessionID) else none := by
  simp only [generateSignedToken]
  rw [lookupW_overlay_not_mem _ _ _ h]
  cases claims.metadata <;> simp [lookupW_ite, lookupW_setW, lookupW]

/-- The scopes entry of a generated token. -/
theorem token_lookup_scopes
    (h : ∀ kv ∈ claims.custom, kv.1 ≠ "scopes") :
    lookupW (generateSignedToken svc claims config).token "scopes" =
      if claims.scopes ≠ [] then some (.wArr (claims.scopes.map .wStr)) else none := by
  simp only [generateSignedToken]
  rw [lookupW_overlay_not_mem _ _ _ h]
  cases claims.metadata <;> simp [lookupW_ite, lookupW_setW, lookupW]

/-- The metadata entry of a generated token. -/
theorem token_lookup_metadata
    (h : ∀ kv ∈ claims.custom, kv.1 ≠ "metadata") :
    lookupW (generateSignedToken svc claims config).token "metadata" =
      (claims.metadata.map fun md => .wMap md) := by
  simp only [generateSignedToken]
  rw [lookupW_overlay_not_mem _ _ _ h]
  cases claims.metadata <;> simp [lookupW_ite, lookupW_setW, lookupW]

/-- The iss entry of a generated token (issuer fallback chain). -/
theorem token_lookup_iss
    (h : ∀ kv ∈ claims.custom, kv.1 ≠ "iss") :
    lookupW (generateSignedToken svc claims config).token "iss" =
      (if claims.issuer ≠ "" then some (.wStr claims.issuer)
       else if svc.issuer ≠ "" then some (.wStr svc.issuer)
       else none) := by
  simp only [generateSignedToken]
  rw [lookupW_overlay_not_mem _ _ _ h]
  cases claims.metadata <;>
    by_cases h1 : claims.issuer = "" <;>
    by_cases h2 : svc.issuer = "" <;>
    simp [lookupW_ite, lookupW_setW, lookupW, h1, h2]

/-- The aud entry of a generated token (audience fallback chain). -/
theorem token_lookup_aud
    (h : ∀ kv ∈ claims.custom, kv.1 ≠ "aud") :
    lookupW (generateSignedToken svc claims config).token "aud" =
      (if config.audience ≠ [] then some (.wArr (config.audience.map .wStr))
       else if claims.audience ≠ "" then some (.wStr claims.audience)
       else if svc.audience ≠ "" then some (.wStr svc.audience)
       else none) := by
  simp only [generateSignedToken]
  rw [lookupW_overlay_not_mem _ _ _ h]
  cases claims.metadata <;>
    by_cases h1 : config.audience = [] <;>
    by_cases h2 : claims.audience = "" <;>
    by_cases h3 : svc.audience = "" <;>
    simp [lookupW_ite, lookupW_setW, lookupW, h1, h2, h3]

/-- The scope entry of a generated token. -/
theorem token_lookup_scope
    (h : ∀ kv ∈ claims.custom, kv.1 ≠ "scope") :
    lookupW (generateSignedToken svc claims config).token "scope" =
      if config.scope ≠ [] then some (.wArr (config.scope.map .wStr)) else none := by
  simp only [generateSignedToken]
  rw [lookupW_overlay_not_mem _ _ _ h]
  cases claims.metadata <;> simp [lookupW_ite, lookupW_setW, lookupW]

/-- The sub entry of a generated token (subject fallback chain). -/
theorem token_lookup_sub
    (h : ∀ kv ∈ claims.custom, kv.1 ≠ "sub") :
    lookupW (generateSignedToken svc claims config).token "sub" =
      some (.wStr (if config.subject ≠ "" then config.subject
                   else if claims.subject ≠ "" then claims.subject
                   else claims.userID)) := by
  simp only [generateSignedToken]
  rw [lookupW_overlay_not_mem _ _ _ h]
  cases claims.metadata <;>
    by_cases h1 : config.subject = "" <;>
    by_cases h2 : claims.subject = "" <;>
    simp [lookupW_ite, lookupW_setW, lookupW, h1, h2]

/-- A non-protected key of a generated token comes from the custom claims. -/
theorem token_lookup_nonprotected (k : String)
    (hk : k ∉ protectedKeys)
    (hscope : config.scope = [])
    (hnd : (claims.custom.map Prod.fst).Nodup) :
    lookupW (generateSignedToken svc claims config).token k =
      lookupW claims.custom k := by
  simp only [protectedKeys, List.mem_cons, List.not_mem_nil, or_false, not_or] at hk
  obtain ⟨n1, n2, n3, n4, n5, n6, n7, n8, n9, n10, n11, n12, n13⟩ := hk
  simp only [generateSignedToken]
  rw [lookupW_overlay_nodup _ _ _ hnd]
  cases hl : lookupW claims.custom k
  · cases claims.metadata <;>
      simp [lookupW_ite, lookupW_setW, hscope, lookupW,
        Ne.symm n1, Ne.symm n2, Ne.symm n3, Ne.symm n4, Ne.symm n5, Ne.symm n6,
        Ne.symm n7, Ne.symm n8, Ne.symm n9, Ne.symm n10, Ne.symm n11, Ne.symm n12,
        Ne.symm n13]
  · simp

end TokenLookups

/-- The exp entry of a generated token. -/
theorem token_lookup_exp (svc : Config) (claims : Claims) (config : TokenConfig)
    (h : ∀ kv ∈ claims.custom, kv.1 ≠ "exp") :
    lookupW (generateSignedToken svc claims config).token "exp" =
      some (.wInt64 config.expiresAt) := by
  simp only [generateSignedToken]
  rw [lookupW_overlay_not_mem _ _ _ h]
  cases claims.metadata <;> simp [lookupW_ite, lookupW_setW, lookupW]

/-- String getter on a present string value. -/
theorem getStringClaim_some (m : WireClaims) (k s : String)
    (h : lookupW m k = some (.wStr s)) : getStringClaim m k = s := by
  simp [getStringClaim, h]

/-- String getter degrades to the empty string. -/
theorem getStringClaim_not_string (m : WireClaims) (k : String)
    (h : ∀ s, lookupW m k ≠ some (.wStr s)) : getStringClaim m k = "" := by
  unfold getStringClaim
  cases hl : lookupW m k with
  | none => rfl
  | some v => cases v with
    | wStr s => exact absurd hl (h s)
    | _ => rfl

/-- Numeric getter on an int64 value. -/
theorem getInt64Claim_int64 (m : WireClaims) (k : String) (n : Int)
    (h : lookupW m k = some (.wInt64 n)) : getInt64Claim m k = n := by
  simp [getInt64Claim, h]

/-- Numeric getter degrades to zero. -/
theorem getInt64Claim_not_numeric (m : WireClaims) (k : String)
    (h : ∀ v, lookupW m k = some v → numericValue v = none) :
    getInt64Claim m k = 0 := by
  unfold getInt64Claim
  cases hl : lookupW m k with
  | none => rfl
  | some v =>
      cases v with
      | wFloat n => exact absurd (h _ hl) (by simp [numericValue])
      | wInt64 n => exact absurd (h _ hl) (by simp [numericValue])
      | wInt n => exact absurd (h _ hl) (by simp [numericValue])
      | _ => rfl

/-- Array getter on a present array value. -/
theorem getStringArrayClaim_arr (m : WireClaims) (k : String) (a : List WireValue)
    (h : lookupW m k = some (.wArr a)) :
    getStringArrayClaim m k =
      a.filterMap (fun v => match v with | .wStr s => some s | _ => none) := by
  simp [getStringArrayClaim, h]

/-- Array getter degrades to nil. -/
theorem getStringArrayClaim_not_arr (m : WireClaims) (k : String)
    (h : ∀ a, lookupW m k ≠ some (.wArr a)) : getStringArrayClaim m k = [] := by
  unfold getStringArrayClaim
  cases hl : lookupW m k with
  | none => rfl
  | some v => cases v with
    | wArr a => exact absurd hl (h a)
    | _ => rfl

/-- Map getter on a present map value. -/
theorem getMapClaim_map (m : WireClaims) (k : String) (mm : WireClaims)
    (h : lookupW m k = some (.wMap mm)) : getMapClaim m k = some mm := by
  simp [getMapClaim, h]

/-- Map getter degrades to nil. -/
theorem getMapClaim_not_map (m : WireClaims) (k : String)
    (h : ∀ mm, lookupW m k ≠ some (.wMap mm)) : getMapClaim m k = none := by
  unfold getMapClaim
  cases hl : lookupW m k with
  | none => rfl
  | some v => cases v with
    | wMap mm => exact absurd hl (h mm)
    | _ => rfl

/-- A string list survives the wire array round trip. -/
theorem filterMap_wStr (l : List String) :
    (l.map WireValue.wStr).filterMap
      (fun v => match v with | .wStr s => some s | _ => none) = l := by
  induction l with
  | nil => rfl
  | cons x xs ih => simp [ih]

/-- Token options run left to right with short-circuit. -/
theorem applyTokenOptions_append (l1 l2 : List TokenOption) (c : TokenConfig) :
    applyTokenOptions (l1 ++ l2) c =
      match applyTokenOptions l1 c with
      | .ok c' => applyTokenOptions l2 c'
      | .error e => .error e := by
  induction l1 generalizing c with
  | nil => rfl
  | cons o rest ih =>
      simp only [List.cons_append, applyTokenOptions]
      cases o c <;> simp [ih]

/-- expires_in is the expiry minus the issue time. -/
theorem generateSignedToken_expiresIn (svc : Config) (claims : Claims)
    (config : TokenConfig) :
    (generateSignedToken svc claims config).expiresIn =
      config.expiresAt - config.issuedAt := rfl

/-- Validation of a parsed token splits into option application, the
library's parse-time validation, decode and policy. -/
theorem validateTokenClaims_split (m : WireClaims) (opts : List ValidationOption)
    (now : Int) (config : ValidationConfig) (d : Claims)
    (hopts : applyValidationOptions opts {} = .ok config)
    (hp : parseTimeValidation m now = .ok ())
    (hd : extractClaims m = .ok d) :
    validateTokenClaims m opts now =
      match (if config.skipValidation = false then validateClaims d config now
             else .ok ()) with
      | .error e => .error e
      | .ok _ =>
          .ok { claims := d
                isValid := true
                expiresAt := if 0 < d.expiresAt then d.expiresAt else 0 } := by
  rw [validateTokenClaims.eq_def, hopts]
  simp only [hp, hd]

/-- A successful validation returns the decoded claims and a true validity flag. -/
theorem validateTokenClaims_ok_inv (m : WireClaims) (opts : List ValidationOption)
    (now : Int) (v : ValidatedToken)
    (h : validateTokenClaims m opts now = .ok v) :
    extractClaims m = .ok v.claims ∧ v.isValid = true := by
  rw [validateTokenClaims.eq_def] at h
  cases ha : applyValidationOptions opts {} with
  | error e => rw [ha] at h; cases h
  | ok config =>
      rw [ha] at h
      dsimp only at h
      cases hp : parseTimeValidation m now with
      | error e => rw [hp] at h; cases h
      | ok w =>
          rw [hp] at h
          dsimp only at h
          cases hd : extractClaims m with
          | error e => rw [hd] at h; cases h
          | ok d =>
              rw [hd] at h
              dsimp only at h
              cases hv : (if config.skipValidation = false then validateClaims d config now
                  else .ok ()) with
              | error e => rw [hv] at h; cases h
              | ok u =>
                  rw [hv] at h
                  dsimp only at h
                  cases h
                  exact ⟨rfl, rfl⟩

/-- The scope check is set containment. -/
theorem hasRequiredScopes_iff (a b : List String) :
    hasRequiredScopes a b = true ↔ ∀ x ∈ b, x ∈ a := by
  simp [hasRequiredScopes, List.all_eq_true]

/-- Decoding the claim set of a generated token, when the custom claims avoid the protected keys. -/
theorem extract_generated (svc : Config) (claims : Claims) (config : TokenConfig)
    (hcust : ∀ kv ∈ claims.custom, kv.1 ∉ protectedKeys) :
    extractClaims (generateSignedToken svc claims config).token = .ok
      { userID := claims.userID
        tokenType := config.tokenKind.str
        clientID := claims.clientID
        deviceID := claims.deviceID
        sessionID := claims.sessionID
        scopes := claims.scopes
        metadata := claims.metadata
        issuer := if claims.issuer ≠ "" then claims.issuer else svc.issuer
        audience := if config.audience ≠ [] then ""
                    else if claims.audience ≠ "" then claims.audience
                    else svc.audience
        subject := if config.subject ≠ "" then config.subject
                   else if claims.subject ≠ "" then claims.subject
                   else claims.userID
        expiresAt := config.expiresAt
        issuedAt := config.issuedAt
        notBefore := config.issuedAt
        custom := getCustomClaims (generateSignedToken svc claims config).token } := by
  have hne : ∀ q ∈ protectedKeys, ∀ kv ∈ claims.custom, kv.1 ≠ q := by
    intro q hq kv hkv he
    exact hcust kv hkv (he ▸ hq)
  have h1 := token_lookup_user_id svc claims config (hne _ (by simp [protectedKeys]))
  have h2 := token_lookup_token_type svc claims config (hne _ (by simp [protectedKeys]))
  have h3 := token_lookup_exp svc claims config (hne _ (by simp [protectedKeys]))
  have h4 := token_lookup_iat svc claims config (hne _ (by simp [protectedKeys]))
  have h5 := token_lookup_nbf svc claims config (hne _ (by simp [protectedKeys]))
  have h6 := token_lookup_client_id svc claims config (hne _ (by simp [protectedKeys]))
  have h7 := token_lookup_device_id svc claims config (hne _ (by simp [protectedKeys]))
  have h8 := token_lookup_session_id svc claims config (hne _ (by simp [protectedKeys]))
  have h9 := token_lookup_scopes svc claims config (hne _ (by simp [protectedKeys]))
  have h10 := token_lookup_metadata svc claims config (hne _ (by simp [protectedKeys]))
  have h11 := token_lookup_iss svc claims config (hne _ (by simp [protectedKeys]))
  have h12 := token_lookup_aud svc claims config (hne _ (by simp [protectedKeys]))
  have h13 := token_lookup_sub svc claims config (hne _ (by simp [protectedKeys]))
  have e2 : getStringClaim (generateSignedToken svc claims config).token "token_type" =
      config.tokenKind.str := getStringClaim_some _ _ _ h2
  have e3 : getInt64Claim (generateSignedToken svc claims config).token "exp" =
      config.expiresAt := getInt64Claim_int64 _ _ _ h3
  have e4 : getInt64Claim (generateSignedToken svc claims config).token "iat" =
      config.issuedAt := getInt64Claim_int64 _ _ _ h4
  have e5 : getInt64Claim (generateSignedToken svc claims config).token "nbf" =
      config.issuedAt := getInt64Claim_int64 _ _ _ h5
  have e6 : getStringClaim (generateSignedToken svc claims config).token "client_id" =
      claims.clientID := by
    by_cases hc : claims.clientID = ""
    · simp only [hc, ne_eq, not_true_eq_false, ite_false] at h6
      rw [getStringClaim_not_string _ _ (by intro s hs; rw [h6] at hs; cases hs), hc]
    · simp only [ne_eq, hc, not_false_eq_true, ite_true] at h6
      exact getStringClaim_some _ _ _ h6
  have e7 : getStringClaim (generateSignedToken svc claims config).token "device_id" =
      claims.deviceID := by
    by_cases hc : claims.deviceID = ""
    · simp only [hc, ne_eq, not_true_eq_false, ite_false] at h7
      rw [getStringClaim_not_string _ _ (by intro s hs; rw [h7] at hs; cases hs), hc]
    · simp only [ne_eq, hc, not_false_eq_true, ite_true] at h7
      exact getStringClaim_some _ _ _ h7
  have e8 : getStringClaim (generateSignedToken svc claims config).token "session_id" =
      claims.sessionID := by
    by_cases hc : claims.sessionID = ""
    · simp only [hc, ne_eq, not_true_eq_false, ite_false] at h8
      rw [getStringClaim_not_string _ _ (by intro s hs; rw [h8] at hs; cases hs), hc]
    · simp only [ne_eq, hc, not_false_eq_true, ite_true] at h8
      exact getStringClaim_some _ _ _ h8
  have e9 : getStringArrayClaim (generateSignedToken svc claims config).token "scopes" =
      claims.scopes := by
    by_cases hc : claims.scopes = []
    · simp only [hc, ne_eq, not_true_eq_false, ite_false] at h9
      rw [getStringArrayClaim_not_arr _ _ (by intro a ha; rw [h9] at ha; cases ha), hc]
    · simp only [ne_eq, hc, not_false_eq_true, ite_true] at h9
      rw [getStringArrayClaim_arr _ _ _ h9, filterMap_wStr]
  have e10 : getMapClaim (generateSignedToken svc claims config).token "metadata" =
      claims.metadata := by
    cases hmd : claims.metadata with
    | none =>
        rw [hmd] at h10
        simp only [Option.map] at h10
        exact getMapClaim_not_map _ _ (by intro mm hm; rw [h10] at hm; cases hm)
    | some md =>
        rw [hmd] at h10
        simp only [Option.map] at h10
        exact getMapClaim_map _ _ _ h10
  have e11 : getStringClaim (generateSignedToken svc claims config).token "iss" =
      (if claims.issuer ≠ "" then claims.issuer else svc.issuer) := by
    by_cases hc : claims.issuer = ""
    · by_cases hs : svc.issuer = ""
      · simp only [hc, hs, ne_eq, not_true_eq_false, ite_false] at h11
        rw [getStringClaim_not_string _ _ (by intro s hx; rw [h11] at hx; cases hx)]
        simp [hc, hs]
      · simp only [hc, ne_eq, hs, not_true_eq_false, not_false_eq_true, ite_false,
          ite_true] at h11
        rw [getStringClaim_some _ _ _ h11]
        simp [hc]
    · simp only [ne_eq, hc, not_false_eq_true, ite_true] at h11
      rw [getStringClaim_some _ _ _ h11]
      simp [hc]
  have e12 : getStringClaim (generateSignedToken svc claims config).token "aud" =
      (if config.audience ≠ [] then ""
       else if claims.audience ≠ "" then claims.audience else svc.audience) := by
    by_cases ha : config.audience = []
    · by_cases hc : claims.audience = ""
      · by_cases hs : svc.audience = ""
        · simp only [ha, hc, hs, ne_eq, not_true_eq_false, ite_false] at h12
          rw [getStringClaim_not_string _ _ (by intro s hx; rw [h12] at hx; cases hx)]
          simp [ha, hc, hs]
        · simp only [ha, hc, ne_eq, hs, not_true_eq_false, not_false_eq_true,
            ite_false, ite_true] at h12
          rw [getStringClaim_some _ _ _ h12]
          simp [ha, hc]
      · simp only [ha, ne_eq, hc, not_true_eq_false, not_false_eq_true, ite_false,
          ite_true] at h12
        rw [getStringClaim_some _ _ _ h12]
        simp [ha, hc]
    · simp only [ne_eq, ha, not_false_eq_true, ite_true] at h12
      rw [getStringClaim_not_string _ _ (by intro s hx; rw [h12] at hx; cases hx)]
      simp [ha]
  have e13 : getStringClaim (generateSignedToken svc claims config).token "sub" =
      (if config.subject ≠ "" then config.subject
       else if claims.subject ≠ "" then claims.subject else claims.userID) :=
    getStringClaim_some _ _ _ h13
  rw [extractClaims.eq_def, h1, e2, e3, e4, e5, e6, e7, e8, e9, e10, e11, e12, e13]

/-- C5: the scope gate succeeds iff every required scope is a member of the token scope set, independently of order and of extra scopes, and on failure (with the earlier gates passing) validation returns InvalidToken. -/
theorem c5_scope_gate_containment (s r : List String) :
    (hasRequiredScopes s r = true ↔ ∀ x ∈ r, x ∈ s) ∧
    (∀ (s' r' : List String), s.Perm s' → r.Perm r' →
      hasRequiredScopes s' r' = hasRequiredScopes s r) ∧
    (∀ (claims : Claims) (config : ValidationConfig) (now : Int),
      claims.scopes = s → config.requiredScopes = r →
      (¬ ∀ x ∈ r, x ∈ s) →
      (config.skipExpiration = true ∨ ¬(0 < claims.expiresAt ∧ claims.expiresAt < now)) →
      ¬(0 < claims.notBefore ∧ now < claims.notBefore) →
      (config.requiredIssuer = "" ∨ claims.issuer = config.requiredIssuer) →
      (config.requiredAudience = "" ∨ claims.audience = config.requiredAudience) →
      validateClaims claims config now = .error .invalidToken) := by
  refine ⟨hasRequiredScopes_iff s r, ?_, ?_⟩
  · intro s' r' hs hr
    by_cases hb : ∀ x ∈ r, x ∈ s
    · rw [(hasRequiredScopes_iff s r).mpr hb,
        (hasRequiredScopes_iff s' r').mpr
          (fun x hx => hs.mem_iff.mp (hb x (hr.mem_iff.mpr hx)))]
    · have h1 : hasRequiredScopes s r = false :=
        Bool.eq_false_iff.mpr (fun hh => hb ((hasRequiredScopes_iff s r).mp hh))
      have h2 : hasRequiredScopes s' r' = false := by
        refine Bool.eq_false_iff.mpr (fun hh => hb ?_)
        intro x hx
        exact hs.mem_iff.mpr ((hasRequiredScopes_iff s' r').mp hh x (hr.mem_iff.mp hx))
      rw [h1, h2]
  · intro claims config now hs hr hfail hexp hnbf hiss haud
    subst hs
    subst hr
    have g1 : ¬(config.skipExpiration = false ∧
        0 < claims.expiresAt ∧ claims.expiresAt < now) := by
      rcases hexp with h | h
      · rintro ⟨hf, -⟩
        rw [h] at hf
        cases hf
      · rintro ⟨-, hrest⟩
        exact h hrest
    have g3 : ¬(config.requiredIssuer ≠ "" ∧ claims.issuer ≠ config.requiredIssuer) := by
      rcases hiss with h | h
      · rintro ⟨h1, -⟩
        exact h1 h
      · rintro ⟨-, h2⟩
        exact h2 h
    have g4 : ¬(config.requiredAudience ≠ "" ∧
        claims.audience ≠ config.requiredAudience) := by
      rcases haud with h | h
      · rintro ⟨h1, -⟩
        exact h1 h
      · rintro ⟨-, h2⟩
        exact h2 h
    have g5 : config.requiredScopes ≠ [] ∧
        hasRequiredScopes claims.scopes config.requiredScopes = false := by
      constructor
      · intro h0
        apply hfail
        rw [h0]
        simp
      · exact Bool.eq_false_iff.mpr (fun hh =>
          hfail ((hasRequiredScopes_iff claims.scopes config.requiredScopes).mp hh))
    rw [validateClaims, if_neg g1, if_neg hnbf, if_neg g3, if_neg g4, if_pos g5]

/-- C5 witness: requiring read against a write-only token fails with InvalidToken. -/
theorem c5_witness : validateClaims c5Claims c5Vconfig 50 = .error .invalidToken :=
  (c5_scope_gate_containment ["write"] ["read"]).2.2 c5Claims c5Vconfig 50 rfl rfl
    (by decide) (Or.inr (by decide)) (by decide) (Or.inl rfl) (Or.inl rfl)

/-- C6: decoding fails (with InvalidClaims) exactly when user_id is absent or not string-typed; every other protected field degrades to its zero value when absent or mistyped and never fails the decode. -/
theorem c6_decode_user_id_required (m : WireClaims) :
    ((∃ c, extractClaims m = .ok c) ↔ (∃ s, lookupW m "user_id" = some (.wStr s))) ∧
    (∀ e, extractClaims m = .error e → e = .invalidClaims) ∧
    (∀ c, extractClaims m = .ok c →
      ((∀ s, lookupW m "token_type" ≠ some (.wStr s)) → c.tokenType = "") ∧
      ((∀ s, lookupW m "client_id" ≠ some (.wStr s)) → c.clientID = "") ∧
      ((∀ s, lookupW m "device_id" ≠ some (.wStr s)) → c.deviceID = "") ∧
      ((∀ s, lookupW m "session_id" ≠ some (.wStr s)) → c.sessionID = "") ∧
      ((∀ s, lookupW m "iss" ≠ some (.wStr s)) → c.issuer = "") ∧
      ((∀ s, lookupW m "aud" ≠ some (.wStr s)) → c.audience = "") ∧
      ((∀ s, lookupW m "sub" ≠ some (.wStr s)) → c.subject = "") ∧
      ((∀ v, lookupW m "exp" = some v → numericValue v = none) → c.expiresAt = 0) ∧
      ((∀ v, lookupW m "iat" = some v → numericValue v = none) → c.issuedAt = 0) ∧
      ((∀ v, lookupW m "nbf" = some v → numericValue v = none) → c.notBefore = 0) ∧
      ((∀ a, lookupW m "scopes" ≠ some (.wArr a)) → c.scopes = []) ∧
      ((∀ mm, lookupW m "metadata" ≠ some (.wMap mm)) → c.metadata = none)) := by
  refine ⟨⟨?_, ?_⟩, ?_, ?_⟩
  · rintro ⟨c, hc⟩
    rw [extractClaims.eq_def] at hc
    cases hl : lookupW m "user_id" with
    | none => rw [hl] at hc; cases hc
    | some v =>
        cases v with
        | wStr s => exact ⟨s, rfl⟩
        | wInt n => rw [hl] at hc; cases hc
        | wInt64 n => rw [hl] at hc; cases hc
        | wFloat n => rw [hl] at hc; cases hc
        | wBool b => rw [hl] at hc; cases hc
        | wArr a => rw [hl] at hc; cases hc
        | wMap mm => rw [hl] at hc; cases hc
  · rintro ⟨s, hs⟩
    exact ⟨_, by rw [extractClaims.eq_def, hs]⟩
  · intro e he
    rw [extractClaims.eq_def] at he
    cases hl : lookupW m "user_id" with
    | none => rw [hl] at he; cases he; rfl
    | some v =>
        cases v with
        | wStr s => rw [hl] at he; cases he
        | wInt n => rw [hl] at he; cases he; rfl
        | wInt64 n => rw [hl] at he; cases he; rfl
        | wFloat n => rw [hl] at he; cases he; rfl
        | wBool b => rw [hl] at he; cases he; rfl
        | wArr a => rw [hl] at he; cases he; rfl
        | wMap mm => rw [hl] at he; cases he; rfl
  · intro c hc
    rw [extractClaims.eq_def] at hc
    cases hl : lookupW m "user_id" with
    | none => rw [hl] at hc; cases hc
    | some v =>
        cases v with
        | wStr s =>
            rw [hl] at hc
            cases hc
            exact ⟨fun h => getStringClaim_not_string m _ h,
              fun h => getStringClaim_not_string m _ h,
              fun h => getStringClaim_not_string m _ h,
              fun h => getStringClaim_not_string m _ h,
              fun h => getStringClaim_not_string m _ h,
              fun h => getStringClaim_not_string m _ h,
              fun h => getStringClaim_not_string m _ h,
              fun h => getInt64Claim_not_numeric m _ h,
              fun h => getInt64Claim_not_numeric m _ h,
              fun h => getInt64Claim_not_numeric m _ h,
              fun h => getStringArrayClaim_not_arr m _ h,
              fun h => getMapClaim_not_map m _ h⟩
        | wInt n => rw [hl] at hc; cases hc
        | wInt64 n => rw [hl] at hc; cases hc
        | wFloat n => rw [hl] at hc; cases hc
        | wBool b => rw [hl] at hc; cases hc
        | wArr a => rw [hl] at hc; cases hc
        | wMap mm => rw [hl] at hc; cases hc

/-- C6 witness: a claim set with only user_id decodes, token_type degrading to empty. -/
theorem c6_witness : ∃ c, extractClaims c6Wire = .ok c ∧ c.tokenType = "" := by
  obtain ⟨c, hc⟩ := (c6_decode_user_id_required c6Wire).1.mpr ⟨"u1", rfl⟩
  exact ⟨c, hc, ((c6_decode_user_id_required c6Wire).2.2 c hc).1
    (by intro s hs; simp [c6Wire, lookupW] at hs)⟩

/-- C9: issuance options run in order; the first failing option aborts issuance with exactly its error, later options have no effect, and no token is returned. -/
theorem c9_option_error_aborts (svc : Config) (now : Int) (claims : Claims)
    (pre post : List TokenOption) (bad : TokenOption) (c' : TokenConfig) (e : JwtError)
    (hpre : applyTokenOptions pre (accessDefaultConfig svc now) = .ok c')
    (hbad : bad c' = .error e) :
    generateAccessToken svc now claims (pre ++ bad :: post) = .error e ∧
    generateAccessToken svc now claims (pre ++ bad :: post) =
      generateAccessToken svc now claims (pre ++ [bad]) := by
  have happ : ∀ (post' : List TokenOption),
      applyTokenOptions (pre ++ bad :: post') (accessDefaultConfig svc now) = .error e := by
    intro post'
    rw [applyTokenOptions_append, hpre]
    simp only [applyTokenOptions, hbad]
  constructor
  · rw [generateAccessToken, happ post]
  · rw [generateAccessToken, happ post, generateAccessToken, happ []]

/-- C9 witness: a failing middle option aborts concrete issuance with its error. -/
theorem c9_witness :
    generateAccessToken exampleService 1000 exampleClaims
        ([withSubject "s"] ++ (fun _ => .error .invalidToken) :: [withAudience ["a"]]) =
      .error .invalidToken ∧
    generateAccessToken exampleService 1000 exampleClaims
        ([withSubject "s"] ++ (fun _ => .error .invalidToken) :: [withAudience ["a"]]) =
      generateAccessToken exampleService 1000 exampleClaims
        ([withSubject "s"] ++ [fun _ => .error .invalidToken]) :=
  c9_option_error_aborts exampleService 1000 exampleClaims [withSubject "s"]
    [withAudience ["a"]] (fun _ => .error .invalidToken) _ .invalidToken rfl rfl

/-- C7: the wire audience follows per-call override, then claims value, then service default, else omitted; the wire subject follows per-call override, then claims value, then user_id, and is never omitted. -/
theorem c7_aud_sub_precedence (svc : Config) (claims : Claims) (config : TokenConfig)
    (haud : ∀ kv ∈ claims.custom, kv.1 ≠ "aud")
    (hsub : ∀ kv ∈ claims.custom, kv.1 ≠ "sub") :
    (lookupW (generateSignedToken svc claims config).token "aud" =
      (if config.audience ≠ [] then some (.wArr (config.audience.map .wStr))
       else if claims.audience ≠ "" then some (.wStr claims.audience)
       else if svc.audience ≠ "" then some (.wStr svc.audience)
       else none)) ∧
    (lookupW (generateSignedToken svc claims config).token "sub" =
      some (.wStr (if config.subject ≠ "" then config.subject
                   else if claims.subject ≠ "" then claims.subject
                   else claims.userID))) :=
  ⟨token_lookup_aud svc claims config haud, token_lookup_sub svc claims config hsub⟩

/-- C7 witness: precedence evaluated at a concrete service, claims and override. -/
theorem c7_witness :
    (lookupW (generateSignedToken exampleService exampleClaims c7Config).token "aud" =
      (if c7Config.audience ≠ [] then some (.wArr (c7Config.audience.map .wStr))
       else if exampleClaims.audience ≠ "" then some (.wStr exampleClaims.audience)
       else if exampleService.audience ≠ "" then some (.wStr exampleService.audience)
       else none)) ∧
    (lookupW (generateSignedToken exampleService exampleClaims c7Config).token "sub" =
      some (.wStr (if c7Config.subject ≠ "" then c7Config.subject
                   else if exampleClaims.subject ≠ "" then exampleClaims.subject
                   else exampleClaims.userID))) :=
  c7_aud_sub_precedence exampleService exampleClaims c7Config
    (by simp [exampleClaims]) (by simp [exampleClaims])

/-- C3: the claim is right and the code is wrong.  At the failing input -
a token issued with access TTL 3600 at time 1000, verified at time 4601 -
expires_in is exactly the TTL and verification fails with a token-expired
error both without and with the skip_expiration option: golang-jwt v5's
parse-time expiry check (which validator.go cannot disable, passing no
parser options) runs before the repository's SkipExpiration flag is ever
consulted, so the skip-expiration success the claim describes is
unreachable through ValidateToken. -/
theorem c3_skip_expiration_defeated :
    ∃ st, generateAccessToken exampleService 1000 exampleClaims [] = .ok st ∧
      st.expiresIn = 3600 ∧
      validateTokenClaims st.token [] (1000 + 3600 + 1) = .error .tokenExpired ∧
      validateTokenClaims st.token [skipExpirationOption] (1000 + 3600 + 1) =
        .error .tokenExpired :=
  ⟨_, rfl, rfl, rfl, rfl⟩

/-- C2 (amended): refreshing a token whose decoded token_type is not refresh never returns a SignedToken; when the validation pre-step itself succeeds the error is InvalidToken, otherwise the pre-step error is propagated. -/
theorem c2_refresh_type_guard (svc : Config) (now : Int) (m : WireClaims)
    (opts : List TokenOption) (d : Claims)
    (hd : extractClaims m = .ok d)
    (ht : d.tokenType ≠ TokenType.refresh.str) :
    (∀ st, refreshAccessToken svc now m opts ≠ .ok st) ∧
    (isOkE (validateTokenClaims m [] now) = true →
      refreshAccessToken svc now m opts = .error .invalidToken) := by
  constructor
  · intro st hst
    rw [refreshAccessToken.eq_def] at hst
    cases hv : validateTokenClaims m [] now with
    | error e => rw [hv] at hst; cases hst
    | ok v =>
        rw [hv] at hst
        obtain ⟨hdc, hval⟩ := validateTokenClaims_ok_inv _ _ _ _ hv
        have hvd : v.claims = d := by
          rw [hd] at hdc
          exact (Except.ok.inj hdc).symm
        simp only [hval, hvd] at hst
        simp [ht] at hst
  · intro hok
    cases hv : validateTokenClaims m [] now with
    | error e =>
        rw [hv] at hok
        simp [isOkE] at hok
    | ok v =>
        obtain ⟨hdc, hval⟩ := validateTokenClaims_ok_inv _ _ _ _ hv
        have hvd : v.claims = d := by
          rw [hd] at hdc
          exact (Except.ok.inj hdc).symm
        rw [refreshAccessToken.eq_def, hv]
        simp [hval, hvd, ht]

/-- C2 witness: refreshing a fresh access token fails with InvalidToken. -/
theorem c2_witness :
    refreshAccessToken exampleService 5 freshAccessWire [] = .error .invalidToken :=
  (c2_refresh_type_guard exampleService 5 freshAccessWire [] _ rfl (by decide)).2 rfl

/-- C2 counterexample: refreshing an expired access token fails with TokenExpired, not InvalidToken as the original claim states. -/
theorem c2_counterexample :
    (extractClaims expiredAccessWire).map (fun d => d.tokenType) = .ok "access" ∧
    refreshAccessToken exampleService 100 expiredAccessWire [] = .error .tokenExpired ∧
    JwtError.tokenExpired ≠ JwtError.invalidToken := ⟨rfl, rfl, by decide⟩

/-- C4 (amended): decode after encode preserves user_id exactly and preserves client_id, device_id, session_id, scopes, metadata and custom (custom keys off the protected set, no per-call scope), while token_type is set from the token configuration. -/
theorem c4_roundtrip_preserved (svc : Config) (claims : Claims) (config : TokenConfig)
    (hcust : ∀ kv ∈ claims.custom, kv.1 ∉ protectedKeys)
    (hnd : (claims.custom.map Prod.fst).Nodup)
    (hscope : config.scope = []) :
    ∃ d, extractClaims (generateSignedToken svc claims config).token = .ok d ∧
      d.userID = claims.userID ∧
      d.clientID = claims.clientID ∧
      d.deviceID = claims.deviceID ∧
      d.sessionID = claims.sessionID ∧
      d.scopes = claims.scopes ∧
      d.metadata = claims.metadata ∧
      (∀ k, lookupW d.custom k = lookupW claims.custom k) ∧
      d.tokenType = config.tokenKind.str := by
  refine ⟨_, extract_generated svc claims config hcust,
    rfl, rfl, rfl, rfl, rfl, rfl, ?_, rfl⟩
  intro k
  show lookupW (getCustomClaims (generateSignedToken svc claims config).token) k =
    lookupW claims.custom k
  rw [lookupW_getCustom]
  by_cases hp : k ∈ protectedKeys
  · rw [if_pos hp]
    exact (lookupW_eq_none _ _ (fun kv hkv he => hcust kv hkv (he ▸ hp))).symm
  · rw [if_neg hp]
    exact token_lookup_nonprotected svc claims config k hp hscope hnd

/-- C4 witness: the preserved fields at a concrete service, claims and configuration. -/
theorem c4_witness :
    ∃ d, extractClaims (generateSignedToken exampleService exampleClaims c4Config).token =
        .ok d ∧
      d.userID = exampleClaims.userID ∧
      d.clientID = exampleClaims.clientID ∧
      d.deviceID = exampleClaims.deviceID ∧
      d.sessionID = exampleClaims.sessionID ∧
      d.scopes = exampleClaims.scopes ∧
      d.metadata = exampleClaims.metadata ∧
      (∀ k, lookupW d.custom k = lookupW exampleClaims.custom k) ∧
      d.tokenType = c4Config.tokenKind.str :=
  c4_roundtrip_preserved exampleService exampleClaims c4Config
    (by simp [exampleClaims]) (by simp [exampleClaims]) rfl

/-- C4 counterexample: a claims value with token_type refresh encodes under an access-kind configuration and decodes with token_type access, so a non-timestamp field is not preserved as the original claim states. -/
theorem c4_counterexample :
    c4Claims.tokenType = "refresh" ∧
    (extractClaims (generateSignedToken exampleService c4Claims c4Config).token).map
      (fun d => d.tokenType) = .ok "access" := ⟨rfl, rfl⟩

/-- C8 (amended): the custom field of a decoded claims is exactly the wire entries outside the decoder protected-key set, which omits scope. -/
theorem c8_custom_complement (m : WireClaims) (d : Claims) (k : String)
    (hd : extractClaims m = .ok d) :
    lookupW d.custom k = if k ∈ protectedKeys then none else lookupW m k := by
  rw [extractClaims.eq_def] at hd
  cases hl : lookupW m "user_id" with
  | none => rw [hl] at hd; cases hd
  | some v =>
      cases v with
      | wStr s =>
          rw [hl] at hd
          cases hd
          exact lookupW_getCustom m k
      | wInt n => rw [hl] at hd; cases hd
      | wInt64 n => rw [hl] at hd; cases hd
      | wFloat n => rw [hl] at hd; cases hd
      | wBool b => rw [hl] at hd; cases hd
      | wArr a => rw [hl] at hd; cases hd
      | wMap mm => rw [hl] at hd; cases hd

/-- C8 counterexample: scope belongs to the protected-key set the claim names, yet a wire scope entry surfaces in the decoded custom claims. -/
theorem c8_counterexample :
    "scope" ∈ specProtectedKeys ∧
    (extractClaims c8Wire).map (fun d => lookupW d.custom "scope") =
      .ok (some (.wArr [.wStr "read"])) := ⟨by decide, rfl⟩

/-- C8 witness: the decoded custom claims of a concrete claim set agree with the
non-protected wire entries at the scope key. -/
theorem c8_witness :
    ∃ d, extractClaims c8Wire = .ok d ∧
      lookupW d.custom "scope" =
        (if "scope" ∈ protectedKeys then none else lookupW c8Wire "scope") :=
  ⟨_, rfl, c8_custom_complement c8Wire _ "scope" rfl⟩

/-- C10 (amended): a token issued with a nonempty per-call audience
override decodes with an empty audience, and verifying it inside its
validity window with a required audience equal to any nonempty element of
the override fails with InvalidToken. -/
theorem c10_list_audience_guard (svc : Config) (claims : Claims) (config : TokenConfig)
    (a : String) (now : Int)
    (hcust : ∀ kv ∈ claims.custom, kv.1 ∉ protectedKeys)
    (hne : config.audience ≠ [])
    (ha : a ∈ config.audience) (hastr : a ≠ "")
    (hexp : now < config.expiresAt)
    (hnbf : config.issuedAt ≤ now) :
    ∃ d, extractClaims (generateSignedToken svc claims config).token = .ok d ∧
      d.audience = "" ∧
      validateTokenClaims (generateSignedToken svc claims config).token
        [withRequiredAudience a] now = .error .invalidToken := by
  have hq : ∀ q ∈ protectedKeys, ∀ kv ∈ claims.custom, kv.1 ≠ q := by
    intro q hqm kv hkv he
    exact hcust kv hkv (he ▸ hqm)
  have hex := extract_generated svc claims config hcust
  have hexp_l := token_lookup_exp svc claims config (hq _ (by simp [protectedKeys]))
  have hnbf_l := token_lookup_nbf svc claims config (hq _ (by simp [protectedKeys]))
  have hp : parseTimeValidation (generateSignedToken svc claims config).token now =
      .ok () := by
    rw [parseTimeValidation.eq_def, hexp_l]
    dsimp only [numericValue]
    rw [if_pos hexp, parseTimeNotBefore.eq_def, hnbf_l]
    dsimp only [numericValue]
    rw [if_neg (by omega)]
  refine ⟨_, hex, ?_, ?_⟩
  · show (if config.audience ≠ [] then ""
          else if claims.audience ≠ "" then claims.audience else svc.audience) = ""
    simp [hne]
  · have hopts : applyValidationOptions [withRequiredAudience a] ({} : ValidationConfig) =
        .ok { requiredAudience := a } := rfl
    have hfin := validateTokenClaims_split
      (generateSignedToken svc claims config).token [withRequiredAudience a] now _ _
      hopts hp hex
    have hx1 : ¬(config.expiresAt < now) := by omega
    have hx2 : ¬(now < config.issuedAt) := by omega
    have hv : validateClaims
        { userID := claims.userID
          tokenType := config.tokenKind.str
          clientID := claims.clientID
          deviceID := claims.deviceID
          sessionID := claims.sessionID
          scopes := claims.scopes
          metadata := claims.metadata
          issuer := if claims.issuer ≠ "" then claims.issuer else svc.issuer
          audience := if config.audience ≠ [] then ""
                      else if claims.audience ≠ "" then claims.audience
                      else svc.audience
          subject := if config.subject ≠ "" then config.subject
                     else if claims.subject ≠ "" then claims.subject
                     else claims.userID
          expiresAt := config.expiresAt
          issuedAt := config.issuedAt
          notBefore := config.issuedAt
          custom := getCustomClaims (generateSignedToken svc claims config).token }
        { requiredAudience := a } now = .error .invalidToken := by
      simp [validateClaims, hx1, hx2, hne, hastr, Ne.symm hastr]
    simp only [hv] at hfin
    simp at hfin
    exact hfin

/-- C10 witness: the override api with required audience api fails with InvalidToken. -/
theorem c10_witness :
    ∃ d, extractClaims
        (generateSignedToken exampleService exampleClaims c10Config).token = .ok d ∧
      d.audience = "" ∧
      validateTokenClaims (generateSignedToken exampleService exampleClaims c10Config).token
        [withRequiredAudience "api"] 50 = .error .invalidToken :=
  c10_list_audience_guard exampleService exampleClaims c10Config "api" 50
    (by simp [exampleClaims]) (by decide) (by decide) (by decide) (by decide) (by decide)

/-- C10 counterexample: with the empty string as override element, a required
audience equal to that element disables the audience gate and verification of
the (unexpired) token succeeds, contradicting the original claim. -/
theorem c10_counterexample :
    "" ∈ c10EmptyConfig.audience ∧
    isOkE (validateTokenClaims
      (generateSignedToken exampleService exampleClaims c10EmptyConfig).token
      [withRequiredAudience ""] 5) = true := ⟨by decide, rfl⟩

end Fulcrum
